import Mathlib

/-!
A shallow embedding of the weight-tracking API views and serializers
(`api_views.py`, `serializers.py`) together with proofs about listing,
creation, update, deletion, delta reporting and S3 upload signing.

Python strings are modelled as Lean strings (lists of characters),
bytes as natural numbers below 256, floats as rationals, and dates and
timestamps as natural numbers.  External collaborators that are not part
of this repository (field validators, crypto primitives, the clock, the
JSON serializer) are collected in a `Utils` structure, so every
definition stays executable once those are instantiated.
-/

/-- Python truthiness of an optional string: `None` and `""` are falsy. -/
def pyTruthy : Option String → Bool
  | none => false
  | some s => !s.isEmpty

/-- Characters removed by Python's `str.strip()` (Unicode whitespace). -/
def pyIsSpace (c : Char) : Bool :=
  c.toNat ∈ [9, 10, 11, 12, 13, 28, 29, 30, 31, 32, 133, 160, 5760,
    8232, 8233, 8239, 8287, 12288] || (8192 ≤ c.toNat && c.toNat ≤ 8202)

/-- Python's `str.strip()`: drop leading and trailing whitespace. -/
def pyStrip (l : List Char) : List Char :=
  ((l.dropWhile pyIsSpace).reverse.dropWhile pyIsSpace).reverse

/-- Insertion step of an insertion sort parameterised by a boolean comparison. -/
def insortBy (r : α → α → Bool) (a : α) : List α → List α
  | [] => [a]
  | b :: l => if r a b then a :: b :: l else b :: insortBy r a l

/-- Insertion sort by a boolean comparison; this models Django's `order_by`. -/
def sortBy (r : α → α → Bool) : List α → List α
  | [] => []
  | a :: l => insortBy r a (sortBy r l)

theorem insortBy_perm (r : α → α → Bool) (a : α) (l : List α) :
    List.Perm (insortBy r a l) (a :: l) := by
  induction l with
  | nil => simp [insortBy]
  | cons b t ih =>
    simp only [insortBy]
    by_cases h : r a b
    · simp [h]
    · simpa [h] using (ih.cons b).trans (List.Perm.swap a b t)

theorem sortBy_perm (r : α → α → Bool) (l : List α) :
    List.Perm (sortBy r l) l := by
  induction l with
  | nil => simp [sortBy]
  | cons a t ih => exact (insortBy_perm r a (sortBy r t)).trans (ih.cons a)

theorem mem_sortBy (r : α → α → Bool) (l : List α) (x : α) :
    x ∈ sortBy r l ↔ x ∈ l :=
  (sortBy_perm r l).mem_iff

theorem length_sortBy (r : α → α → Bool) (l : List α) :
    (sortBy r l).length = l.length :=
  (sortBy_perm r l).length_eq

theorem insortBy_pairwise (r : α → α → Bool)
    (htot : ∀ a b, r a b = false → r b a = true)
    (htrans : ∀ a b c, r a b = true → r b c = true → r a c = true)
    (a : α) (l : List α) (h : l.Pairwise (fun x y => r x y = true)) :
    (insortBy r a l).Pairwise (fun x y => r x y = true) := by
  induction l with
  | nil => simp [insortBy]
  | cons b t ih =>
    rcases List.pairwise_cons.mp h with ⟨hb, ht⟩
    by_cases hab : r a b
    · simp only [insortBy, if_pos hab]
      refine List.pairwise_cons.mpr ⟨?_, h⟩
      intro x hx
      rcases List.mem_cons.mp hx with rfl | hx
      · exact hab
      · exact htrans a b x hab (hb x hx)
    · simp only [insortBy, if_neg hab]
      refine List.pairwise_cons.mpr ⟨?_, ih ht⟩
      intro x hx
      have hx' := (insortBy_perm r a t).mem_iff.mp hx
      rcases List.mem_cons.mp hx' with heq | hx'
      · rw [heq]
        exact htot a b (by simpa using hab)
      · exact hb x hx'

theorem sortBy_pairwise (r : α → α → Bool)
    (htot : ∀ a b, r a b = false → r b a = true)
    (htrans : ∀ a b c, r a b = true → r b c = true → r a c = true)
    (l : List α) :
    (sortBy r l).Pairwise (fun x y => r x y = true) := by
  induction l with
  | nil => simp [sortBy]
  | cons a t ih => exact insortBy_pairwise r htot htrans a (sortBy r t) ih

/-- The base64 alphabet used by Python's `base64.b64encode`. -/
def b64Alphabet : List Char :=
  ['A', 'B', 'C', 'D', 'E', 'F', 'G', 'H', 'I', 'J', 'K', 'L', 'M',
   'N', 'O', 'P', 'Q', 'R', 'S', 'T', 'U', 'V', 'W', 'X', 'Y', 'Z',
   'a', 'b', 'c', 'd', 'e', 'f', 'g', 'h', 'i', 'j', 'k', 'l', 'm',
   'n', 'o', 'p', 'q', 'r', 's', 't', 'u', 'v', 'w', 'x', 'y', 'z',
   '0', '1', '2', '3', '4', '5', '6', '7', '8', '9', '+', '/']

/-- Character of the base64 alphabet at index `i` (padding char out of range). -/
def b64Char (i : Nat) : Char := b64Alphabet.getD i '='

/-- Base64 encoding of a byte string, three bytes at a time, with padding. -/
def b64chunks : List Nat → List Char
  | a :: b :: c :: rest =>
      b64Char (a / 4) :: b64Char (a % 4 * 16 + b / 16) ::
        b64Char (b % 16 * 4 + c / 64) :: b64Char (c % 64) :: b64chunks rest
  | [a, b] => [b64Char (a / 4), b64Char (a % 4 * 16 + b / 16), b64Char (b % 16 * 4), '=']
  | [a] => [b64Char (a / 4), b64Char (a % 4 * 16), '=', '=']
  | [] => []

/-- Python's `base64.b64encode` on a byte string, decoded as a Lean string. -/
def b64encode (bs : List Nat) : String := String.mk (b64chunks bs)

/-- Index of a character in the base64 alphabet. -/
def b64Index (c : Char) : Nat := b64Alphabet.indexOf c

/-- Inverse of `b64chunks`, used to show that base64 encoding is injective. -/
def b64decode : List Char → Option (List Nat)
  | c1 :: c2 :: c3 :: c4 :: rest =>
    if c4 = '=' then
      if c3 = '=' then
        if rest.isEmpty then some [b64Index c1 * 4 + b64Index c2 / 16] else none
      else if rest.isEmpty then
        some [b64Index c1 * 4 + b64Index c2 / 16,
              b64Index c2 % 16 * 16 + b64Index c3 / 4]
      else none
    else
      match b64decode rest with
      | some bs =>
          some ((b64Index c1 * 4 + b64Index c2 / 16) ::
                ((b64Index c2 % 16 * 16 + b64Index c3 / 4) ::
                  ((b64Index c3 % 4 * 64 + b64Index c4) :: bs)))
      | none => none
  | [] => some []
  | _ => none

theorem b64Index_b64Char : ∀ i < 64, b64Index (b64Char i) = i := by decide

theorem b64Char_ne_pad : ∀ i < 64, b64Char i ≠ '=' := by decide

theorem b64Char_mem_or_pad (i : Nat) : b64Char i ∈ b64Alphabet ∨ b64Char i = '=' := by
  by_cases h : i < b64Alphabet.length
  · left
    unfold b64Char
    rw [List.getD_eq_getElem b64Alphabet '=' h]
    exact List.getElem_mem h
  · right
    unfold b64Char
    rw [List.getD_eq_default b64Alphabet '=' (by omega)]

theorem b64chunks_mem (bs : List Nat) :
    ∀ c ∈ b64chunks bs, c ∈ b64Alphabet ∨ c = '=' := by
  induction bs using b64chunks.induct with
  | case1 a b c rest ih =>
    intro x hx
    rcases List.mem_cons.mp hx with rfl | hx
    · exact b64Char_mem_or_pad _
    rcases List.mem_cons.mp hx with rfl | hx
    · exact b64Char_mem_or_pad _
    rcases List.mem_cons.mp hx with rfl | hx
    · exact b64Char_mem_or_pad _
    rcases List.mem_cons.mp hx with rfl | hx
    · exact b64Char_mem_or_pad _
    · exact ih x hx
  | case2 a b =>
    intro x hx
    simp only [b64chunks] at hx
    rcases List.mem_cons.mp hx with rfl | hx
    · exact b64Char_mem_or_pad _
    rcases List.mem_cons.mp hx with rfl | hx
    · exact b64Char_mem_or_pad _
    rcases List.mem_cons.mp hx with rfl | hx
    · exact b64Char_mem_or_pad _
    · simp at hx
      rw [hx]
      right
      rfl
  | case3 a =>
    intro x hx
    simp only [b64chunks] at hx
    rcases List.mem_cons.mp hx with rfl | hx
    · exact b64Char_mem_or_pad _
    rcases List.mem_cons.mp hx with rfl | hx
    · exact b64Char_mem_or_pad _
    · simp at hx
      rw [hx]
      right
      rfl
  | case4 => intro x hx; simp [b64chunks] at hx

theorem b64chunks_no_dot (bs : List Nat) : '.' ∉ b64chunks bs := by
  intro h
  rcases b64chunks_mem bs '.' h with hmem | hpad
  · revert hmem
    decide
  · revert hpad
    decide

theorem pyIsSpace_alphabet : ∀ c ∈ b64Alphabet, pyIsSpace c = false := by decide

theorem b64chunks_no_space (bs : List Nat) :
    ∀ c ∈ b64chunks bs, pyIsSpace c = false := by
  intro c hc
  rcases b64chunks_mem bs c hc with hmem | hpad
  · exact pyIsSpace_alphabet c hmem
  · rw [hpad]
    decide

theorem b64decode_b64chunks :
    ∀ bs : List Nat, (∀ x ∈ bs, x < 256) → b64decode (b64chunks bs) = some bs := by
  intro bs
  induction bs using b64chunks.induct with
  | case1 a b c rest ih =>
    intro hlt
    have ha : a < 256 := hlt a (by simp)
    have hb : b < 256 := hlt b (by simp)
    have hc : c < 256 := hlt c (by simp)
    have h4 : b64Char (c % 64) ≠ '=' := b64Char_ne_pad _ (by omega)
    simp only [b64chunks, b64decode, if_neg h4]
    rw [ih (fun x hx => hlt x (by simp [hx]))]
    rw [b64Index_b64Char (a / 4) (by omega),
        b64Index_b64Char (a % 4 * 16 + b / 16) (by omega),
        b64Index_b64Char (b % 16 * 4 + c / 64) (by omega),
        b64Index_b64Char (c % 64) (by omega)]
    have e1 : a / 4 * 4 + (a % 4 * 16 + b / 16) / 16 = a := by omega
    have e2 : (a % 4 * 16 + b / 16) % 16 * 16 + (b % 16 * 4 + c / 64) / 4 = b := by omega
    have e3 : (b % 16 * 4 + c / 64) % 4 * 64 + c % 64 = c := by omega
    rw [e1, e2, e3]
  | case2 a b =>
    intro hlt
    have ha : a < 256 := hlt a (by simp)
    have hb : b < 256 := hlt b (by simp)
    have h3 : b64Char (b % 16 * 4) ≠ '=' := b64Char_ne_pad _ (by omega)
    simp only [b64chunks, b64decode, if_pos rfl, if_neg h3, List.isEmpty_nil, if_pos]
    rw [b64Index_b64Char (a / 4) (by omega),
        b64Index_b64Char (a % 4 * 16 + b / 16) (by omega),
        b64Index_b64Char (b % 16 * 4) (by omega)]
    have e1 : a / 4 * 4 + (a % 4 * 16 + b / 16) / 16 = a := by omega
    have e2 : (a % 4 * 16 + b / 16) % 16 * 16 + b % 16 * 4 / 4 = b := by omega
    rw [e1, e2]
  | case3 a =>
    intro hlt
    have ha : a < 256 := hlt a (by simp)
    simp only [b64chunks, b64decode, if_pos rfl, List.isEmpty_nil]
    rw [b64Index_b64Char (a / 4) (by omega), b64Index_b64Char (a % 4 * 16) (by omega)]
    have e1 : a / 4 * 4 + a % 4 * 16 / 16 = a := by omega
    rw [e1]
    simp
  | case4 => intro _; rfl

theorem b64chunks_inj {bs1 bs2 : List Nat}
    (h1 : ∀ x ∈ bs1, x < 256) (h2 : ∀ x ∈ bs2, x < 256)
    (h : b64chunks bs1 = b64chunks bs2) : bs1 = bs2 := by
  have := b64decode_b64chunks bs1 h1
  rw [h, b64decode_b64chunks bs2 h2] at this
  exact (Option.some.inj this).symm

/-- UTF-8 encoding of a single Unicode code point, as bytes. -/
def utf8EncodeCP (n : Nat) : List Nat :=
  if n < 128 then [n]
  else if n < 2048 then [192 + n / 64, 128 + n % 64]
  else if n < 65536 then [224 + n / 4096, 128 + n / 64 % 64, 128 + n % 64]
  else [240 + n / 262144, 128 + n / 4096 % 64, 128 + n / 64 % 64, 128 + n % 64]

/-- Decoder for one UTF-8 sequence: returns the code point and the rest. -/
def utf8DecodeOne : List Nat → Option (Nat × List Nat)
  | [] => none
  | b :: rest =>
    if b < 128 then some (b, rest)
    else if b < 192 then none
    else if b < 224 then
      match rest with
      | b2 :: r => some ((b - 192) * 64 + (b2 - 128), r)
      | [] => none
    else if b < 240 then
      match rest with
      | b2 :: b3 :: r => some ((b - 224) * 4096 + (b2 - 128) * 64 + (b3 - 128), r)
      | _ => none
    else
      match rest with
      | b2 :: b3 :: b4 :: r =>
          some ((b - 240) * 262144 + (b2 - 128) * 4096 + (b3 - 128) * 64 + (b4 - 128), r)
      | _ => none

/-- Fuelled UTF-8 decoder for byte strings, recovering code points. -/
def utf8DecodeAux : Nat → List Nat → Option (List Nat)
  | _, [] => some []
  | 0, _ :: _ => none
  | fuel + 1, b :: rest =>
    match utf8DecodeOne (b :: rest) with
    | some (n, r) => (utf8DecodeAux fuel r).map (n :: ·)
    | none => none

/-- Inverse of `utf8Flat`, showing UTF-8 encoding of strings is injective. -/
def utf8DecodeCP (l : List Nat) : Option (List Nat) := utf8DecodeAux l.length l

theorem utf8DecodeOne_one (b : Nat) (h : b < 128) (rest : List Nat) :
    utf8DecodeOne (b :: rest) = some (b, rest) := by
  simp only [utf8DecodeOne]
  rw [if_pos h]

theorem utf8DecodeOne_two (b b2 : Nat) (h1 : ¬ b < 128) (h2 : ¬ b < 192)
    (h3 : b < 224) (r : List Nat) :
    utf8DecodeOne (b :: b2 :: r) = some ((b - 192) * 64 + (b2 - 128), r) := by
  simp only [utf8DecodeOne]
  rw [if_neg h1, if_neg h2, if_pos h3]

theorem utf8DecodeOne_three (b b2 b3 : Nat) (h1 : ¬ b < 128) (h2 : ¬ b < 192)
    (h3 : ¬ b < 224) (h4 : b < 240) (r : List Nat) :
    utf8DecodeOne (b :: b2 :: b3 :: r) =
      some ((b - 224) * 4096 + (b2 - 128) * 64 + (b3 - 128), r) := by
  simp only [utf8DecodeOne]
  rw [if_neg h1, if_neg h2, if_neg h3, if_pos h4]

theorem utf8DecodeOne_four (b b2 b3 b4 : Nat) (h1 : ¬ b < 128) (h2 : ¬ b < 192)
    (h3 : ¬ b < 224) (h4 : ¬ b < 240) (r : List Nat) :
    utf8DecodeOne (b :: b2 :: b3 :: b4 :: r) =
      some ((b - 240) * 262144 + (b2 - 128) * 4096 + (b3 - 128) * 64 + (b4 - 128), r) := by
  simp only [utf8DecodeOne]
  rw [if_neg h1, if_neg h2, if_neg h3, if_neg h4]

theorem utf8DecodeOne_encode (n : Nat) (hn : n < 1114112) (rest : List Nat) :
    utf8DecodeOne (utf8EncodeCP n ++ rest) = some (n, rest) := by
  unfold utf8EncodeCP
  by_cases h1 : n < 128
  · rw [if_pos h1]
    simp only [List.cons_append, List.nil_append]
    rw [utf8DecodeOne_one n h1]
  by_cases h2 : n < 2048
  · rw [if_neg h1, if_pos h2]
    simp only [List.cons_append, List.nil_append]
    rw [utf8DecodeOne_two (192 + n / 64) (128 + n % 64)
      (by omega) (by omega) (by omega)]
    have hv : (192 + n / 64 - 192) * 64 + (128 + n % 64 - 128) = n := by omega
    rw [hv]
  by_cases h3 : n < 65536
  · rw [if_neg h1, if_neg h2, if_pos h3]
    simp only [List.cons_append, List.nil_append]
    rw [utf8DecodeOne_three (224 + n / 4096) (128 + n / 64 % 64) (128 + n % 64)
      (by omega) (by omega) (by omega) (by omega)]
    have hv : (224 + n / 4096 - 224) * 4096 + (128 + n / 64 % 64 - 128) * 64 +
        (128 + n % 64 - 128) = n := by omega
    rw [hv]
  · rw [if_neg h1, if_neg h2, if_neg h3]
    simp only [List.cons_append, List.nil_append]
    rw [utf8DecodeOne_four (240 + n / 262144) (128 + n / 4096 % 64) (128 + n / 64 % 64)
      (128 + n % 64) (by omega) (by omega) (by omega) (by omega)]
    have hv : (240 + n / 262144 - 240) * 262144 + (128 + n / 4096 % 64 - 128) * 4096 +
        (128 + n / 64 % 64 - 128) * 64 + (128 + n % 64 - 128) = n := by omega
    rw [hv]

theorem utf8EncodeCP_ne_nil (n : Nat) : utf8EncodeCP n ≠ [] := by
  unfold utf8EncodeCP
  by_cases h1 : n < 128
  · simp [if_pos h1]
  by_cases h2 : n < 2048
  · simp [if_neg h1, if_pos h2]
  by_cases h3 : n < 65536
  · simp [if_neg h1, if_neg h2, if_pos h3]
  · simp [if_neg h1, if_neg h2, if_neg h3]

/-- Concatenated UTF-8 encoding of a list of code points. -/
def utf8Flat : List Nat → List Nat
  | [] => []
  | n :: ns => utf8EncodeCP n ++ utf8Flat ns

theorem utf8DecodeAux_utf8Flat :
    ∀ ns : List Nat, ∀ fuel : Nat, (∀ n ∈ ns, n < 1114112) →
      (utf8Flat ns).length ≤ fuel → utf8DecodeAux fuel (utf8Flat ns) = some ns := by
  intro ns
  induction ns with
  | nil =>
    intro fuel _ _
    cases fuel <;> rfl
  | cons n t ih =>
    intro fuel h hfuel
    have hn : n < 1114112 := h n (by simp)
    rcases List.exists_cons_of_ne_nil (utf8EncodeCP_ne_nil n) with ⟨b, eb, hcons⟩
    have hlen : 1 ≤ (utf8EncodeCP n).length := by rw [hcons]; simp
    have hflat : utf8Flat (n :: t) = b :: (eb ++ utf8Flat t) := by
      simp [utf8Flat, hcons]
    rw [hflat] at hfuel ⊢
    have hlen2 : (eb ++ utf8Flat t).length = (utf8EncodeCP n).length - 1 +
        (utf8Flat t).length := by
      rw [hcons]
      simp
    cases fuel with
    | zero => simp at hfuel
    | succ f =>
      have hdec : utf8DecodeOne (b :: (eb ++ utf8Flat t)) = some (n, utf8Flat t) := by
        have : b :: (eb ++ utf8Flat t) = utf8EncodeCP n ++ utf8Flat t := by
          rw [hcons]
          simp
        rw [this]
        exact utf8DecodeOne_encode n hn (utf8Flat t)
      simp only [utf8DecodeAux, hdec]
      have hf : (utf8Flat t).length ≤ f := by
        simp only [List.length_cons] at hfuel
        omega
      rw [ih f (fun x hx => h x (by simp [hx])) hf]
      rfl

theorem utf8DecodeCP_utf8Flat (ns : List Nat) (h : ∀ n ∈ ns, n < 1114112) :
    utf8DecodeCP (utf8Flat ns) = some ns :=
  utf8DecodeAux_utf8Flat ns (utf8Flat ns).length h (le_refl _)

theorem utf8Flat_inj {ns ms : List Nat}
    (h1 : ∀ n ∈ ns, n < 1114112) (h2 : ∀ n ∈ ms, n < 1114112)
    (h : utf8Flat ns = utf8Flat ms) : ns = ms := by
  have := utf8DecodeCP_utf8Flat ns h1
  rw [h, utf8DecodeCP_utf8Flat ms h2] at this
  exact (Option.some.inj this).symm

theorem utf8EncodeCP_bytes_lt (n : Nat) (hn : n < 1114112) :
    ∀ x ∈ utf8EncodeCP n, x < 256 := by
  intro x hx
  unfold utf8EncodeCP at hx
  by_cases h1 : n < 128
  · simp [if_pos h1] at hx; omega
  by_cases h2 : n < 2048
  · simp [if_neg h1, if_pos h2] at hx; rcases hx with rfl | rfl <;> omega
  by_cases h3 : n < 65536
  · simp [if_neg h1, if_neg h2, if_pos h3] at hx
    rcases hx with rfl | rfl | rfl <;> omega
  · simp [if_neg h1, if_neg h2, if_neg h3] at hx
    rcases hx with rfl | rfl | rfl | rfl <;> omega

theorem utf8Flat_bytes_lt :
    ∀ ns : List Nat, (∀ n ∈ ns, n < 1114112) → ∀ x ∈ utf8Flat ns, x < 256 := by
  intro ns
  induction ns with
  | nil => intro _ x hx; simp [utf8Flat] at hx
  | cons n t ih =>
    intro h x hx
    simp only [utf8Flat, List.mem_append] at hx
    rcases hx with hx | hx
    · exact utf8EncodeCP_bytes_lt n (h n (by simp)) x hx
    · exact ih (fun m hm => h m (by simp [hm])) x hx

theorem char_toNat_lt (c : Char) : c.toNat < 1114112 := by
  have h := c.valid
  rcases h with h | h
  · unfold Char.toNat; omega
  · unfold Char.toNat; omega

/-- Python's `str.encode("utf-8")` on a Lean string, as a byte list. -/
def utf8Bytes (s : String) : List Nat := utf8Flat (s.data.map Char.toNat)

theorem utf8Bytes_lt (s : String) : ∀ x ∈ utf8Bytes s, x < 256 := by
  apply utf8Flat_bytes_lt
  intro n hn
  rcases List.mem_map.mp hn with ⟨c, hc, rfl⟩
  exact char_toNat_lt c

theorem utf8Bytes_inj {s t : String} (h : utf8Bytes s = utf8Bytes t) : s = t := by
  apply String.ext
  apply List.map_injective_iff.mpr (fun a b hab => Char.ext (UInt32.ext hab))
  apply utf8Flat_inj ?h1 ?h2 h
  case h1 =>
    intro n hn
    rcases List.mem_map.mp hn with ⟨c, hc, rfl⟩
    exact char_toNat_lt c
  case h2 =>
    intro n hn
    rcases List.mem_map.mp hn with ⟨c, hc, rfl⟩
    exact char_toNat_lt c

/-- Split a list at the first occurrence of `c`: the parts before and after. -/
def splitFirst (c : Char) : List Char → Option (List Char × List Char)
  | [] => none
  | x :: rest =>
    if x = c then some ([], rest)
    else
      match splitFirst c rest with
      | some (a, b) => some (x :: a, b)
      | none => none

theorem splitFirst_spec (c : Char) :
    ∀ l a b, splitFirst c l = some (a, b) → l = a ++ c :: b ∧ c ∉ a := by
  intro l
  induction l with
  | nil => intro a b h; simp [splitFirst] at h
  | cons x rest ih =>
    intro a b h
    simp only [splitFirst] at h
    by_cases hx : x = c
    · rw [if_pos hx] at h
      simp only [Option.some.injEq, Prod.mk.injEq] at h
      rcases h with ⟨rfl, rfl⟩
      simp [hx]
    · rw [if_neg hx] at h
      cases hs : splitFirst c rest with
      | none => rw [hs] at h; simp at h
      | some ab =>
        rw [hs] at h
        rcases ab with ⟨a0, b0⟩
        simp only [Option.some.injEq, Prod.mk.injEq] at h
        rcases h with ⟨rfl, rfl⟩
        rcases ih a0 b0 hs with ⟨rfl, hnotin⟩
        constructor
        · simp
        · simp only [List.mem_cons, not_or]
          exact ⟨fun hh => hx hh.symm, hnotin⟩

/-- Python's `os.path.splitext` (POSIX rules) on the characters of a filename. -/
def splitextL (p : List Char) : List Char × List Char :=
  match splitFirst '.' p.reverse with
  | none => (p, [])
  | some (tr, sr) =>
    if ('/' ∉ tr) ∧ (∃ c ∈ sr.takeWhile (fun c => c ≠ '/'), c ≠ '.') then
      (sr.reverse, '.' :: tr.reverse)
    else (p, [])

theorem splitextL_append (p : List Char) :
    (splitextL p).1 ++ (splitextL p).2 = p := by
  unfold splitextL
  cases hs : splitFirst '.' p.reverse with
  | none => simp
  | some ab =>
    rcases ab with ⟨tr, sr⟩
    rcases splitFirst_spec '.' p.reverse tr sr hs with ⟨hrev, _⟩
    dsimp only
    by_cases hcond : ('/' ∉ tr) ∧ (∃ c ∈ sr.takeWhile (fun c => c ≠ '/'), c ≠ '.')
    · rw [if_pos hcond]
      have hp : p = (tr ++ '.' :: sr).reverse := by
        rw [← hrev]
        simp
      rw [hp]
      simp
    · rw [if_neg hcond]
      simp

theorem splitextL_ext_shape (p : List Char) :
    (splitextL p).2 = [] ∨ ∃ t, (splitextL p).2 = '.' :: t ∧ '.' ∉ t := by
  unfold splitextL
  cases hs : splitFirst '.' p.reverse with
  | none => simp
  | some ab =>
    rcases ab with ⟨tr, sr⟩
    rcases splitFirst_spec '.' p.reverse tr sr hs with ⟨_, hnotin⟩
    dsimp only
    by_cases hcond : ('/' ∉ tr) ∧ (∃ c ∈ sr.takeWhile (fun c => c ≠ '/'), c ≠ '.')
    · rw [if_pos hcond]
      right
      refine ⟨tr.reverse, rfl, ?_⟩
      simp only [List.mem_reverse]
      exact hnotin
    · rw [if_neg hcond]
      simp

theorem append_dot_inj :
    ∀ l1 l2 r1 r2 : List Char, '.' ∉ l1 → '.' ∉ l2 →
      l1 ++ '.' :: r1 = l2 ++ '.' :: r2 → l1 = l2 ∧ r1 = r2 := by
  intro l1
  induction l1 with
  | nil =>
    intro l2 r1 r2 _ h2 h
    cases l2 with
    | nil => simpa using h
    | cons y t2 =>
      simp only [List.nil_append, List.cons_append, List.cons.injEq] at h
      rcases h with ⟨rfl, -⟩
      simp at h2
  | cons x t1 ih =>
    intro l2 r1 r2 h1 h2 h
    cases l2 with
    | nil =>
      simp only [List.nil_append, List.cons_append, List.cons.injEq] at h
      rcases h with ⟨rfl, -⟩
      simp at h1
    | cons y t2 =>
      simp only [List.cons_append, List.cons.injEq] at h
      rcases h with ⟨rfl, htail⟩
      have hih := ih t2 r1 r2 (fun hm => h1 (List.mem_cons_of_mem x hm))
        (fun hm => h2 (List.mem_cons_of_mem x hm)) htail
      exact ⟨by rw [hih.1], hih.2⟩

theorem dropWhile_append_of_mem {p : Char → Bool} {a : Char} :
    ∀ l1 : List Char, a ∈ l1 → p a = false → ∀ l2 : List Char,
      (l1 ++ l2).dropWhile p = l1.dropWhile p ++ l2 := by
  intro l1
  induction l1 with
  | nil => intro h; simp at h
  | cons b t ih =>
    intro hmem hpa l2
    by_cases hb : p b
    · rcases List.mem_cons.mp hmem with rfl | hmem2
      · rw [hpa] at hb; simp at hb
      · simp only [List.cons_append, List.dropWhile_cons, hb, if_pos]
        exact ih hmem2 hpa l2
    · simp [List.dropWhile_cons, hb]

theorem dropWhile_append_last {p : Char → Bool} {c : Char} (hc : p c = false) :
    ∀ l : List Char, (l ++ [c]).dropWhile p = l.dropWhile p ++ [c] := by
  intro l
  induction l with
  | nil => simp [List.dropWhile_cons, hc]
  | cons b t ih =>
    by_cases hb : p b
    · simp only [List.cons_append, List.dropWhile_cons, hb, if_pos]
      exact ih
    · simp [List.dropWhile_cons, hb]

theorem rstrip_no_op {p : Char → Bool} {l : List Char}
    (h : ∀ c xr, l.reverse = c :: xr → p c = false) :
    (l.reverse.dropWhile p).reverse = l := by
  cases hrev : l.reverse with
  | nil =>
    have hl : l = [] := by rw [← l.reverse_reverse, hrev]; rfl
    simp [hl]
  | cons c xr =>
    rw [List.dropWhile_cons, if_neg (by simp [h c xr hrev])]
    rw [← hrev, List.reverse_reverse]

theorem pyStrip_block (Q x : List Char)
    (hx : ∀ c xr, x.reverse = c :: xr → pyIsSpace c = false) :
    pyStrip ((Q ++ ['-']) ++ x) = (Q ++ ['-']).dropWhile pyIsSpace ++ x := by
  unfold pyStrip
  rw [dropWhile_append_of_mem (a := '-') (Q ++ ['-'])
    (List.mem_append_right Q (by simp)) (by decide) x]
  apply rstrip_no_op
  intro c xr hrev
  rw [List.reverse_append] at hrev
  cases hxrev : x.reverse with
  | cons c0 xr0 =>
    rw [hxrev] at hrev
    simp only [List.cons_append, List.cons.injEq] at hrev
    rw [← hrev.1]
    exact hx c0 xr0 hxrev
  | nil =>
    rw [hxrev] at hrev
    simp only [List.nil_append] at hrev
    rw [dropWhile_append_last (by decide) Q, List.reverse_append] at hrev
    simp only [List.reverse_cons, List.reverse_nil, List.nil_append,
      List.singleton_append, List.cons.injEq] at hrev
    rw [← hrev.1]
    decide

/-- A user (participant) as seen by the serializers. -/
structure User where
  id : Nat
  weight_unit : String
  special_code : String
deriving Repr, DecidableEq

/-- A competitor reference: `teammate.id` plus `teammate.team.challenge.id`. -/
structure Competitor where
  id : Nat
  teamChallengeId : Nat
deriving Repr, DecidableEq

/-- A row of the `Weight` model (dates and timestamps as natural numbers,
weights as rationals). -/
structure Weight where
  id : Nat
  participant : Nat
  verified : Bool
  method : String
  date_of_measurement : Nat
  weight_kilograms : Rat
  weight_in_pounds : Rat
  verifier_file : Option String
  video_link : Option String
  competitors : List Nat
  created : Nat
  modified : Nat
deriving Repr, DecidableEq

/-- One entry of the S3 policy's conditions list. -/
inductive S3Condition where
  | bucket (name : String)
  | startsWithKey (key : String)
  | acl (value : String)
  | success_action_status (value : String)
  | startsWithContentType (value : String)
deriving Repr, DecidableEq

/-- The S3 policy document built by the signing serializer; the expiration
is kept as an epoch timestamp (its `strftime` rendering is presentation). -/
structure PolicyDoc where
  expiration : Nat
  conditions : List S3Condition
deriving Repr, DecidableEq

/-- Project settings referenced by the serializers. -/
structure Settings where
  S3_BUCKET_NAME : String
  S3_SECRET_KEY : String
  S3_ACCESS_KEY : String
  MAIN_COMPETITION : Nat
deriving Repr, DecidableEq

/-- External collaborators of the two source files: the validators from
`utils`, crypto primitives and JSON from the standard library, the clock,
and the thumbnail helper.  They are inputs of the embedding. -/
structure Utils where
  validate_weight : User → Rat → Nat → Bool → Except String Rat
  validate_date : Nat → Except String Nat
  validate_height : Int → Int → User → Except String Unit
  validate_competitor : Option String → Except String (List Competitor)
  sha1hex : String → String
  hmacSha1 : String → String → List Nat
  jsonDumps : PolicyDoc → String
  thumbnailUrl : String → String
  now : Nat
  today : Nat

/-- Modelled from the spec: the repository's `convert_weight_to_kgs_and_lbs`
helper (imported from `utils`, whose source is not given) converts the
submitted weight in the user's unit into the pair (kilograms, pounds);
the spec requires the stored kilograms and pounds to be mutually
consistent conversions of the same weight. -/
def convert_weight_to_kgs_and_lbs (unit : String) (w : Rat) : Rat × Rat :=
  if unit = "kg" then (w, w * (220462 / 100000 : Rat))
  else (w / (220462 / 100000 : Rat), w)

/-- Modelled from the spec: the `BelongsToUser` permission class from
`core.permissions` (source not given) grants object access iff the object
belongs to the requesting user; ownership violations on update and delete
are rejected by this check before any business logic runs. -/
def BelongsToUser.has_object_permission (user : User) (obj : Weight) : Bool :=
  obj.participant == user.id

/-- Modelled from the spec: the `Weight.existing.before_date(user, date)`
manager method (models are not part of the given sources) fetches all of
the participant's measurements up to the given date. -/
def Weight.existing_before_date (db : List Weight) (user : User) (d : Nat) :
    List Weight :=
  db.filter (fun w => w.participant == user.id && decide (w.date_of_measurement ≤ d))

/-- Comparison used for `order_by('-date_of_measurement', '-modified')`. -/
def byDateModifiedDesc (w1 w2 : Weight) : Bool :=
  decide (w2.date_of_measurement < w1.date_of_measurement) ||
    (w1.date_of_measurement == w2.date_of_measurement &&
      decide (w2.modified ≤ w1.modified))

/-- Comparison used for `order_by('date_of_measurement')`. -/
def byDateAsc (w1 w2 : Weight) : Bool :=
  decide (w1.date_of_measurement ≤ w2.date_of_measurement)

/-- Comparison used for `order_by('-created')`. -/
def byCreatedDesc (w1 w2 : Weight) : Bool :=
  decide (w2.created ≤ w1.created)

/-- `RetrieveWeighinAPIView.get_queryset`: the caller's (existing)
measurements, newest first.  `db` stands for the rows of the `existing`
manager. -/
def RetrieveWeighinAPIView.get_queryset (db : List Weight) (user : User) :
    List Weight :=
  sortBy byDateModifiedDesc (db.filter (fun w => w.participant == user.id))

/-- `DeleteWeightAPIView` (a `DestroyAPIView` with the `BelongsToUser`
permission): object lookup, ownership permission check, then deletion.
The first component of the result is the table after the request. -/
def DeleteWeightAPIView.delete (db : List Weight) (user : User) (pk : Nat) :
    List Weight × Except String Unit :=
  match db.find? (fun w => w.id == pk) with
  | none => (db, .error "Not found.")
  | some obj =>
    if BelongsToUser.has_object_permission user obj then
      (db.filter (fun w => !(w.id == pk)), .ok ())
    else (db, .error "You do not have permission to perform this action.")

/-- Validated data of `WeightSerializer`. -/
structure WeightValidated where
  user : User
  weight_unit : String
  weight : Rat
  date_of_measurement : Nat
deriving Repr, DecidableEq

/-- `WeightSerializer` validation: the `date_of_measurement` field
validator `validate_date` runs first (its return value is discarded for a
field validator); `validate` then records the user's unit and the result
of `validate_weight`. -/
def WeightSerializer.validate (U : Utils) (user : User) (weight : Rat)
    (date_of_measurement : Nat) : Except String WeightValidated := do
  let _ ← U.validate_date date_of_measurement
  let w ← U.validate_weight user weight date_of_measurement false
  pure { user := user, weight_unit := user.weight_unit, weight := w,
         date_of_measurement := date_of_measurement }

/-- `WeightSerializer.create`: converts once with the shared helper and
persists both units; `verified` and `method` are hard-coded here. -/
def WeightSerializer.create (user : User) (vd : WeightValidated)
    (newId created : Nat) : Weight :=
  let p := convert_weight_to_kgs_and_lbs vd.weight_unit vd.weight
  { id := newId, participant := user.id, verified := false, method := "mobile",
    date_of_measurement := vd.date_of_measurement,
    weight_kilograms := p.1, weight_in_pounds := p.2,
    verifier_file := none, video_link := none, competitors := [],
    created := created, modified := created }

/-- DRF `serializer.save(**kwargs)`: keyword overrides are merged into the
validated data before `create` runs.  Of the keywords this view passes,
only `date_of_measurement` is read back by `WeightSerializer.create`, so
it is the only override modelled. -/
def WeightSerializer.save (user : User) (vd : WeightValidated)
    (dateOverride : Option Nat) (newId created : Nat) : Weight :=
  WeightSerializer.create user
    { vd with date_of_measurement := dateOverride.getD vd.date_of_measurement }
    newId created

/-- An HTTP response of the weigh-in create view: status code, error
detail, and the row saved by the handler, if any. -/
structure ApiResponse where
  status : Nat
  error : Option String
  saved : Option Weight
deriving Repr, DecidableEq

/-- `CreateWeighinAPIView.post`: validates the body, then saves only for
the two recognised values of the `weighin_type` query parameter;
`self-reported` overrides the measurement date with today's date, any
other type falls through to a 200 response without saving. -/
def CreateWeighinAPIView.post (U : Utils) (user : User)
    (weighin_type : Option String) (weight : Rat) (date_of_measurement : Nat)
    (newId created : Nat) : ApiResponse :=
  match WeightSerializer.validate U user weight date_of_measurement with
  | .error e => { status := 400, error := some e, saved := none }
  | .ok vd =>
    if weighin_type == some "self-reported" then
      { status := 200, error := none,
        saved := some (WeightSerializer.save user vd (some U.today) newId created) }
    else if weighin_type == some "verified" then
      { status := 200, error := none,
        saved := some (WeightSerializer.save user vd none newId created) }
    else
      { status := 200, error := none, saved := none }

/-- Validated data of `VideoVerificationSerializer`. -/
structure VideoVerificationValidated where
  user : User
  weight_unit : String
  weight : Rat
  date_of_measurement : Nat
  competitors : List Competitor
  s3_file_url : Option String
  video_url : Option String
  platform : String
deriving Repr, DecidableEq

/-- `VideoVerificationSerializer.validate` (the `date` field validator
`validate_date` runs first): resolves competitors and the weight, then
rejects the submission when both proof artifacts are falsy. -/
def VideoVerificationSerializer.validate (U : Utils) (user : User)
    (weight : Rat) (date_of_measurement : Nat) (competitor_ids : Option String)
    (s3_file_url video_url : Option String) (platform : String) :
    Except String VideoVerificationValidated := do
  let _ ← U.validate_date date_of_measurement
  let competitors ← U.validate_competitor competitor_ids
  let w ← U.validate_weight user weight date_of_measurement false
  if !pyTruthy s3_file_url && !pyTruthy video_url then
    Except.error "Please attach a video file or include a video link."
  else
    pure { user := user, weight_unit := user.weight_unit, weight := w,
           date_of_measurement := date_of_measurement, competitors := competitors,
           s3_file_url := s3_file_url, video_url := video_url, platform := platform }

/-- `VideoVerificationSerializer.create`: persists a verified measurement,
stores the proof artifact, attaches competitors, and (second component)
enqueues the congratulations email task iff the competitor list is truthy
and some attached competitor's team challenge is the main competition. -/
def VideoVerificationSerializer.create (S : Settings)
    (vd : VideoVerificationValidated) (newId created : Nat) : Weight × Bool :=
  let p := convert_weight_to_kgs_and_lbs vd.weight_unit vd.weight
  let m : Weight :=
    { id := newId, participant := vd.user.id, verified := true,
      method := vd.platform, date_of_measurement := vd.date_of_measurement,
      weight_kilograms := p.1, weight_in_pounds := p.2,
      verifier_file := none, video_link := none, competitors := [],
      created := created, modified := created }
  let m :=
    if pyTruthy vd.s3_file_url then { m with verifier_file := vd.s3_file_url }
    else { m with video_link := vd.video_url }
  if !vd.competitors.isEmpty then
    ({ m with competitors := vd.competitors.map (fun t => t.id) },
      (vd.competitors.map (fun t => t.teamChallengeId)).contains S.MAIN_COMPETITION)
  else (m, false)

/-- `ApiVideoVerificationView` (a `CreateAPIView`): validate then create.
On a validation error the table is unchanged and nothing is created. -/
def ApiVideoVerificationView.post (S : Settings) (U : Utils) (db : List Weight)
    (user : User) (weight : Rat) (date_of_measurement : Nat)
    (competitor_ids s3_file_url video_url : Option String) (platform : String)
    (newId created : Nat) : List Weight × Except String (Weight × Bool) :=
  match VideoVerificationSerializer.validate U user weight date_of_measurement
      competitor_ids s3_file_url video_url platform with
  | .error e => (db, .error e)
  | .ok vd =>
    let mc := VideoVerificationSerializer.create S vd newId created
    (db ++ [mc.1], .ok mc)

/-- Encoded file name used in the object key: base64 of the UTF-8 bytes of
the stem, with the original extension appended. -/
def signFileName (video_filename : String) : List Char :=
  b64chunks (utf8Flat (((splitextL video_filename.data).1).map Char.toNat)) ++
    (splitextL video_filename.data).2

/-- The `expires` value hashed into the object key: `time.time() + 1000`. -/
def signExpires (U : Utils) : Nat := U.now + 1000

/-- The S3 object key (before the final `strip()`): sha1 of the expiry,
the user's code and the encoded file name, joined by dashes. -/
def signObjectName (U : Utils) (user : User) (video_filename : String) :
    List Char :=
  (U.sha1hex (toString (signExpires U))).data ++
    '-' :: user.special_code.data ++ '-' :: signFileName video_filename

/-- The policy conditions list of the signing serializer. -/
def signConditions (S : Settings) (U : Utils) (user : User)
    (video_filename : String) : List S3Condition :=
  [S3Condition.bucket S.S3_BUCKET_NAME,
   S3Condition.startsWithKey (String.mk (signObjectName U user video_filename)),
   S3Condition.acl "public-read",
   S3Condition.success_action_status "201",
   S3Condition.startsWithContentType ""]

/-- The policy document: expires 30 days (2592000 seconds) after issuance. -/
def signPolicyDoc (S : Settings) (U : Utils) (user : User)
    (video_filename : String) : PolicyDoc :=
  { expiration := U.now + 30 * 86400,
    conditions := signConditions S U user video_filename }

/-- The policy as sent: base64 of the JSON-serialized policy document. -/
def signPolicyB64 (S : Settings) (U : Utils) (user : User)
    (video_filename : String) : String :=
  b64encode (utf8Bytes (U.jsonDumps (signPolicyDoc S U user video_filename)))

/-- Python's legacy `base64.encodestring`: 57-byte input chunks, each
encoded and followed by a newline. -/
def encodestringBytes : List Nat → List Char
  | [] => []
  | b :: rest =>
      b64chunks ((b :: rest).take 57) ++ '\n' :: encodestringBytes ((b :: rest).drop 57)
termination_by l => l.length
decreasing_by simp [List.length_drop]; omega

/-- Result dictionary of the S3 signing serializer (`Content-Type` is the
`contentType` field). -/
structure SignResult where
  bucket_url : String
  s3_file_url : String
  key : String
  policy : String
  signature : String
  AWSAccessKeyId : String
  acl : String
  success_action_status : Nat
  contentType : String
deriving Repr, DecidableEq

/-- `ApiSignS3PutRequestViewSerializer.create`: builds the object key, the
policy document and the HMAC-SHA1 signature over the base64-encoded
policy. -/
def ApiSignS3PutRequestViewSerializer.create (S : Settings) (U : Utils)
    (user : User) (video_filename : String) : SignResult :=
  let object_name := String.mk (signObjectName U user video_filename)
  let policy := signPolicyB64 S U user video_filename
  { bucket_url := "https://" ++ S.S3_BUCKET_NAME ++ ".s3.amazonaws.com/",
    s3_file_url := "https://" ++ S.S3_BUCKET_NAME ++ ".s3.amazonaws.com/" ++ object_name,
    key := String.mk (pyStrip object_name.data),
    policy := String.mk (pyStrip policy.data),
    signature := String.mk (pyStrip (encodestringBytes
      (U.hmacSha1 S.S3_SECRET_KEY policy))),
    AWSAccessKeyId := S.S3_ACCESS_KEY,
    acl := "public-read",
    success_action_status := 201,
    contentType := "" }

/-- `ApiSignS3PutRequestViewSerializer.validate`: height check, competitor
resolution, then the date validator (whose result is kept here). -/
def ApiSignS3PutRequestViewSerializer.validate (U : Utils) (user : User)
    (date : Nat) (competitor_ids : Option String)
    (height_big height_small : Int) (video_filename : String) :
    Except String (List Competitor × Nat × String) := do
  let _ ← U.validate_height height_big height_small user
  let cs ← U.validate_competitor competitor_ids
  let d ← U.validate_date date
  pure (cs, d, video_filename)

/-- `ApiSignS3PutRequestView.get`: validate the query parameters, then
produce the signing result with status 200. -/
def ApiSignS3PutRequestView.get (S : Settings) (U : Utils) (user : User)
    (_weight : Rat) (date : Nat) (competitor_ids : Option String)
    (height_big height_small : Int) (video_filename : String) :
    Except String SignResult :=
  match ApiSignS3PutRequestViewSerializer.validate U user date competitor_ids
      height_big height_small video_filename with
  | .error e => .error e
  | .ok _ => .ok (ApiSignS3PutRequestViewSerializer.create S U user video_filename)

/-- The `lost_weight` value of the delta report: the Python code returns
the number 0 for a first entry and the strings lost/gained otherwise. -/
inductive LostWeight where
  | zero
  | lost
  | gained
deriving Repr, DecidableEq

/-- Report produced by `UnverifiedWeightSerializer.to_representation`. -/
structure DeltaRep where
  first_entry : Bool
  weight_difference : Rat
  lost_weight : LostWeight
  weight_unit : String
deriving Repr, DecidableEq

/-- `UnverifiedWeightSerializer.to_representation`: the delta report over
the participant's measurements up to the given date.  With more than one
measurement the queryset is re-ordered by `-created` and the two most
recent rows are compared in the user's unit; otherwise it is a first
entry. -/
def UnverifiedWeightSerializer.to_representation (db : List Weight) (user : User)
    (date_of_measurement : Nat) : DeltaRep :=
  let weigh_ins := sortBy byDateAsc
    (Weight.existing_before_date db user date_of_measurement)
  if 1 < weigh_ins.length then
    match sortBy byCreatedDesc
        (Weight.existing_before_date db user date_of_measurement) with
    | new_weigh_in :: old_weigh_in :: _ =>
      let weight_difference :=
        if user.weight_unit == "kg" then
          old_weigh_in.weight_kilograms - new_weigh_in.weight_kilograms
        else
          old_weigh_in.weight_in_pounds - new_weigh_in.weight_in_pounds
      { first_entry := false, weight_difference := |weight_difference|,
        lost_weight := if 0 ≤ weight_difference then .lost else .gained,
        weight_unit := user.weight_unit }
    | _ =>
      { first_entry := true, weight_difference := 0, lost_weight := .zero,
        weight_unit := user.weight_unit }
  else
    { first_entry := true, weight_difference := 0, lost_weight := .zero,
      weight_unit := user.weight_unit }

/-- `UnverifiedWeightSerializer.save`: persists the measurement with the
raw `weight_image` value from the request as the proof file. -/
def UnverifiedWeightSerializer.save (user : User) (weight_unit : String)
    (weight : Rat) (date_of_measurement : Nat) (weight_image : Option String)
    (newId created : Nat) : Weight :=
  let p := convert_weight_to_kgs_and_lbs weight_unit weight
  { id := newId, participant := user.id, verified := false, method := "mobile",
    date_of_measurement := date_of_measurement,
    weight_kilograms := p.1, weight_in_pounds := p.2,
    verifier_file := weight_image, video_link := none, competitors := [],
    created := created, modified := created }

/-- `UnverifiedWeightSerializer._validate_weigh_in_type`: a falsy type is
required, anything other than the two known values is invalid. -/
def UnverifiedWeightSerializer.validate_weigh_in_type
    (weigh_in_type : Option String) : Except String Unit :=
  if !pyTruthy weigh_in_type then .error "Weigh-in type is required"
  else if weigh_in_type != some "self-reported" &&
      weigh_in_type != some "verified" then
    .error "Invalid weigh-in type"
  else .ok ()

/-- Validated data of `UnverifiedWeightSerializer`: the raw weight (the
`validate_weight` return value is discarded here) and the user's unit. -/
structure UnverifiedValidated where
  weight : Rat
  weight_unit : String
deriving Repr, DecidableEq

/-- `UnverifiedWeightSerializer.validate`: the date field validator runs
first, then the weigh-in type check from the view context, then
`validate_weight` (result discarded); no image check happens here. -/
def UnverifiedWeightSerializer.validate (U : Utils) (user : User)
    (weighin_type : Option String) (weight : Rat) (date_of_measurement : Nat) :
    Except String UnverifiedValidated := do
  let _ ← U.validate_date date_of_measurement
  let _ ← UnverifiedWeightSerializer.validate_weigh_in_type weighin_type
  let _ ← U.validate_weight user weight date_of_measurement false
  pure { weight := weight, weight_unit := user.weight_unit }

/-- Extension of a filename: `os.path.splitext(name)[1][1:].strip().lower()`. -/
def extOf (name : String) : List Char :=
  (pyStrip ((splitextL name.data).2.drop 1)).map Char.toLower

/-- `UnverifiedWeightSerializer.get_weight_image`, the method of the
`weight_image` `SerializerMethodField`: thumbnail for a known extension,
a validation error otherwise.  Because `to_representation` is overridden
wholesale, the view flow never invokes this method. -/
def UnverifiedWeightSerializer.get_weight_image (U : Utils)
    (weight_image verifier_file : Option String) :
    Except String (Option String) :=
  match weight_image with
  | none => .ok none
  | some image_name =>
    if image_name.isEmpty then .ok none
    else if extOf image_name ∈ ["jpg".data, "jpeg".data, "png".data] then
      .ok (some (U.thumbnailUrl (verifier_file.getD "")))
    else
      .error "Images must be in PNG or JPG or JPEG format, and no larger than 10MB in size"

/-- `CreateUnverifiedWeighinAPIView.post`: validate (which checks the
weigh-in type but never the image extension), save, then respond with the
delta representation computed over the table that now contains the new
row.  On a validation error the table is unchanged. -/
def CreateUnverifiedWeighinAPIView.post (U : Utils) (db : List Weight)
    (user : User) (weighin_type : Option String) (weight : Rat)
    (date_of_measurement : Nat) (weight_image : Option String)
    (newId created : Nat) : List Weight × Except String DeltaRep :=
  match UnverifiedWeightSerializer.validate U user weighin_type weight
      date_of_measurement with
  | .error e => (db, .error e)
  | .ok vd =>
    let m := UnverifiedWeightSerializer.save user vd.weight_unit vd.weight
      date_of_measurement weight_image newId created
    let db2 := db ++ [m]
    (db2, .ok (UnverifiedWeightSerializer.to_representation db2 user
      date_of_measurement))

/-- `UpdateWeightSerializer._image_has_correct_format`: rejects a present
image whose extension is not jpg, jpeg or png. -/
def UpdateWeightSerializer.image_has_correct_format (image : Option String) :
    Except String Unit :=
  if pyTruthy image then
    if extOf (image.getD "") ∈ ["jpg".data, "jpeg".data, "png".data] then .ok ()
    else .error "Images must be in PNG or JPG or JPEG format"
  else .ok ()

/-- Validated data of `UpdateWeightSerializer`. -/
structure UpdateValidated where
  weight : Rat
  weight_unit : String
  date_of_measurement : Nat
deriving Repr, DecidableEq

/-- `UpdateWeightSerializer.validate`: the date field validator, then the
image-format check, then `validate_weight` with `update=True` (result
discarded). -/
def UpdateWeightSerializer.validate (U : Utils) (user : User)
    (date_of_measurement : Nat) (weight : Rat) (weight_image : Option String) :
    Except String UpdateValidated := do
  let _ ← U.validate_date date_of_measurement
  let _ ← UpdateWeightSerializer.image_has_correct_format weight_image
  let _ ← U.validate_weight user weight date_of_measurement true
  pure { weight := weight, weight_unit := user.weight_unit,
         date_of_measurement := date_of_measurement }

/-- `UpdateWeightSerializer.update`: recompute both unit conversions with
the shared helper and replace or clear the proof image. -/
def UpdateWeightSerializer.update (inst0 : Weight) (vd : UpdateValidated)
    (weight_image : Option String) (remove_image : Bool) : Weight :=
  let p := convert_weight_to_kgs_and_lbs vd.weight_unit vd.weight
  let inst : Weight :=
    { inst0 with
      date_of_measurement := vd.date_of_measurement
      weight_kilograms := p.1
      weight_in_pounds := p.2 }
  if pyTruthy weight_image then { inst with verifier_file := weight_image }
  else if remove_image then { inst with verifier_file := none }
  else inst

/-- `UpdateWeight` (an `UpdateAPIView` with the `BelongsToUser`
permission): object lookup, then the ownership permission check, and only
then serializer validation and the update itself.  The first component is
the table after the request. -/
def UpdateWeight.put (U : Utils) (db : List Weight) (user : User) (pk : Nat)
    (date_of_measurement : Nat) (weight : Rat) (weight_image : Option String)
    (remove_image : Bool) : List Weight × Except String Weight :=
  match db.find? (fun w => w.id == pk) with
  | none => (db, .error "Not found.")
  | some obj =>
    if BelongsToUser.has_object_permission user obj then
      match UpdateWeightSerializer.validate U user date_of_measurement weight
          weight_image with
      | .error e => (db, .error e)
      | .ok vd =>
        let w2 := UpdateWeightSerializer.update obj vd weight_image remove_image
        (db.map (fun w => if w.id == pk then w2 else w), .ok w2)
    else (db, .error "You do not have permission to perform this action.")

theorem byCreatedDesc_total :
    ∀ a b, byCreatedDesc a b = false → byCreatedDesc b a = true := by
  intro a b h
  unfold byCreatedDesc at h ⊢
  simp only [decide_eq_false_iff_not, not_le] at h
  simp only [decide_eq_true_eq]
  omega

theorem byCreatedDesc_trans :
    ∀ a b c, byCreatedDesc a b = true → byCreatedDesc b c = true →
      byCreatedDesc a c = true := by
  intro a b c h1 h2
  unfold byCreatedDesc at h1 h2 ⊢
  simp only [decide_eq_true_eq] at h1 h2 ⊢
  omega

/-- C1: for every participant, the listing queryset only ever contains the
requesting participant's rows, and an update or delete aimed at a row
owned by someone else is rejected by the ownership permission check — for
every behaviour of the validators, i.e. before any business logic — with
the table left unchanged. -/
theorem c1_ownership_isolation :
    (∀ (db : List Weight) (user : User) (w : Weight),
        w ∈ RetrieveWeighinAPIView.get_queryset db user →
        w.participant = user.id) ∧
    (∀ (U : Utils) (db : List Weight) (user : User) (pk : Nat) (obj : Weight)
        (dom : Nat) (wt : Rat) (img : Option String) (rm : Bool),
        db.find? (fun w => w.id == pk) = some obj →
        obj.participant ≠ user.id →
        UpdateWeight.put U db user pk dom wt img rm =
          (db, Except.error "You do not have permission to perform this action.") ∧
        DeleteWeightAPIView.delete db user pk =
          (db, Except.error "You do not have permission to perform this action.")) := by
  constructor
  · intro db user w hw
    rw [RetrieveWeighinAPIView.get_queryset, mem_sortBy] at hw
    have hf := List.mem_filter.mp hw
    simpa using hf.2
  · intro U db user pk obj dom wt img rm hfind hne
    have hperm : BelongsToUser.has_object_permission user obj = false := by
      unfold BelongsToUser.has_object_permission
      simpa using hne
    constructor
    · unfold UpdateWeight.put
      rw [hfind]
      simp only [hperm, Bool.false_eq_true, if_false]
    · unfold DeleteWeightAPIView.delete
      rw [hfind]
      simp only [hperm, Bool.false_eq_true, if_false]

/-- Sample user with id 1 preferring kilograms. -/
def user1 : User := { id := 1, weight_unit := "kg", special_code := "u" }

/-- Sample measurement row constructor for witnesses. -/
def sampleWeight (i owner dom created : Nat) (kg lbs : Rat) : Weight :=
  { id := i, participant := owner, verified := false, method := "mobile",
    date_of_measurement := dom, weight_kilograms := kg, weight_in_pounds := lbs,
    verifier_file := none, video_link := none, competitors := [],
    created := created, modified := 0 }

/-- Trivial instantiation of the external collaborators. -/
def utils0 : Utils :=
  { validate_weight := fun _ w _ _ => .ok w
    validate_date := fun d => .ok d
    validate_height := fun _ _ _ => .ok ()
    validate_competitor := fun _ => .ok []
    sha1hex := fun _ => "h"
    hmacSha1 := fun _ _ => []
    jsonDumps := fun _ => "p"
    thumbnailUrl := fun s => s
    now := 0
    today := 77 }

theorem c1_ownership_isolation_witness :
    (sampleWeight 1 1 10 0 100 220).participant = user1.id ∧
    UpdateWeight.put utils0 [sampleWeight 2 2 10 0 90 198] user1 2 11 80 none false =
      ([sampleWeight 2 2 10 0 90 198],
        Except.error "You do not have permission to perform this action.") ∧
    DeleteWeightAPIView.delete [sampleWeight 2 2 10 0 90 198] user1 2 =
      ([sampleWeight 2 2 10 0 90 198],
        Except.error "You do not have permission to perform this action.") := by
  refine ⟨?_, ?_⟩
  · exact c1_ownership_isolation.1 [sampleWeight 1 1 10 0 100 220] user1
      (sampleWeight 1 1 10 0 100 220) (by decide)
  · exact c1_ownership_isolation.2 utils0 [sampleWeight 2 2 10 0 90 198] user1 2
      (sampleWeight 2 2 10 0 90 198) 11 80 none false (by decide) (by decide)

/-- C2: delta reporting.  With exactly two stored measurements up to the
given date for a kg-unit participant — 100 kg created first, 95 kg created
second — the report is not a first entry, the direction is lost and the
difference is 5.  With exactly one stored measurement the report is a
first entry with difference 0.  In general, when the re-ordered queryset
starts with `n, o, rest`, `n` is most recent by creation time and `o` is
most recent among the remaining rows, and the two compared values are
taken in the user's preferred unit. -/
theorem c2_delta_report :
    (∀ (db : List Weight) (user : User) (d : Nat) (e1 e2 : Weight),
        user.weight_unit = "kg" →
        Weight.existing_before_date db user d = [e1, e2] →
        e1.weight_kilograms = 100 → e2.weight_kilograms = 95 →
        e1.created < e2.created →
        UnverifiedWeightSerializer.to_representation db user d =
          { first_entry := false, weight_difference := 5,
            lost_weight := .lost, weight_unit := "kg" }) ∧
    (∀ (db : List Weight) (user : User) (d : Nat),
        (Weight.existing_before_date db user d).length = 1 →
        UnverifiedWeightSerializer.to_representation db user d =
          { first_entry := true, weight_difference := 0,
            lost_weight := .zero, weight_unit := user.weight_unit }) ∧
    (∀ (db : List Weight) (user : User) (d : Nat) (n o : Weight)
        (rest : List Weight),
        sortBy byCreatedDesc (Weight.existing_before_date db user d) =
          n :: o :: rest →
        (∀ w ∈ Weight.existing_before_date db user d, w.created ≤ n.created) ∧
        (∀ w ∈ rest, w.created ≤ o.created) ∧
        (user.weight_unit = "kg" →
          UnverifiedWeightSerializer.to_representation db user d =
            { first_entry := false,
              weight_difference := |o.weight_kilograms - n.weight_kilograms|,
              lost_weight :=
                if 0 ≤ o.weight_kilograms - n.weight_kilograms then .lost
                else .gained,
              weight_unit := "kg" }) ∧
        (user.weight_unit ≠ "kg" →
          UnverifiedWeightSerializer.to_representation db user d =
            { first_entry := false,
              weight_difference := |o.weight_in_pounds - n.weight_in_pounds|,
              lost_weight :=
                if 0 ≤ o.weight_in_pounds - n.weight_in_pounds then .lost
                else .gained,
              weight_unit := user.weight_unit })) := by
  refine ⟨?_, ?_, ?_⟩
  · intro db user d e1 e2 hunit hbase hk1 hk2 hcreated
    have hr : byCreatedDesc e1 e2 = false := by
      unfold byCreatedDesc
      exact decide_eq_false (by omega)
    have hsort : sortBy byCreatedDesc [e1, e2] = [e2, e1] := by
      simp [sortBy, insortBy, hr]
    unfold UnverifiedWeightSerializer.to_representation
    rw [hbase, hsort]
    rw [if_pos (by rw [length_sortBy]; norm_num)]
    rw [hunit]
    norm_num [hk1, hk2]
  · intro db user d hlen
    unfold UnverifiedWeightSerializer.to_representation
    rw [if_neg (by rw [length_sortBy, hlen]; norm_num)]
  · intro db user d n o rest hsort
    have hpw := sortBy_pairwise byCreatedDesc byCreatedDesc_total
      byCreatedDesc_trans (Weight.existing_before_date db user d)
    rw [hsort] at hpw
    rcases List.pairwise_cons.mp hpw with ⟨hn, hpw2⟩
    rcases List.pairwise_cons.mp hpw2 with ⟨ho, _⟩
    have hlen : 1 < (Weight.existing_before_date db user d).length := by
      have := length_sortBy byCreatedDesc (Weight.existing_before_date db user d)
      rw [hsort] at this
      simp at this
      omega
    refine ⟨?_, ?_, ?_, ?_⟩
    · intro w hw
      have hw2 : w ∈ n :: o :: rest := by
        rw [← hsort, mem_sortBy]
        exact hw
      rcases List.mem_cons.mp hw2 with rfl | hw3
      · exact le_refl _
      · have := hn w hw3
        unfold byCreatedDesc at this
        simpa using this
    · intro w hw
      have := ho w hw
      unfold byCreatedDesc at this
      simpa using this
    · intro hunit
      unfold UnverifiedWeightSerializer.to_representation
      rw [if_pos (by rw [length_sortBy]; exact hlen), hsort]
      rw [hunit]
      simp
    · intro hunit
      unfold UnverifiedWeightSerializer.to_representation
      rw [if_pos (by rw [length_sortBy]; exact hlen), hsort]
      have hne : (user.weight_unit == "kg") = false := by
        simpa using hunit
      simp only [hne, Bool.false_eq_true, if_false]

/-- Sample rows for the delta-report witness: 100 kg created first, 95 kg
created second, both before day 20. -/
def w100 : Weight := sampleWeight 1 1 10 0 100 220

/-- Companion row to `w100`: 95 kg, created second. -/
def w95 : Weight := sampleWeight 2 1 11 1 95 209

theorem c2_delta_report_witness :
    UnverifiedWeightSerializer.to_representation [w100, w95] user1 20 =
      { first_entry := false, weight_difference := 5,
        lost_weight := .lost, weight_unit := "kg" } ∧
    UnverifiedWeightSerializer.to_representation [w100] user1 20 =
      { first_entry := true, weight_difference := 0,
        lost_weight := .zero, weight_unit := user1.weight_unit } := by
  constructor
  · exact c2_delta_report.1 [w100, w95] user1 20 w100 w95 rfl (by decide)
      (by decide) (by decide) (by decide)
  · exact c2_delta_report.2.1 [w100] user1 20 (by decide)

/-- C3: a video-verification submission in which both the uploaded-file
reference and the video link are absent or empty always fails validation
with a client-visible error, and the endpoint leaves the table unchanged:
no measurement is created. -/
theorem c3_missing_proof_rejected :
    ∀ (S : Settings) (U : Utils) (db : List Weight) (user : User)
      (weight : Rat) (d : Nat) (cids s3 vurl : Option String)
      (platform : String) (newId created : Nat),
      pyTruthy s3 = false → pyTruthy vurl = false →
      (∃ e, VideoVerificationSerializer.validate U user weight d cids s3 vurl
          platform = .error e) ∧
      (∃ e, ApiVideoVerificationView.post S U db user weight d cids s3 vurl
          platform newId created = (db, .error e)) := by
  intro S U db user weight d cids s3 vurl platform newId created h1 h2
  have hval : ∃ e, VideoVerificationSerializer.validate U user weight d cids
      s3 vurl platform = .error e := by
    unfold VideoVerificationSerializer.validate
    cases hd : U.validate_date d with
    | error e => exact ⟨e, rfl⟩
    | ok dv =>
      cases hc : U.validate_competitor cids with
      | error e => exact ⟨e, rfl⟩
      | ok cs =>
        cases hw : U.validate_weight user weight d false with
        | error e => exact ⟨e, rfl⟩
        | ok wv =>
          refine ⟨"Please attach a video file or include a video link.", ?_⟩
          simp only [h1, h2]
          rfl
  refine ⟨hval, ?_⟩
  rcases hval with ⟨e, he⟩
  refine ⟨e, ?_⟩
  unfold ApiVideoVerificationView.post
  rw [he]

theorem c3_missing_proof_rejected_witness :
    (∃ e, VideoVerificationSerializer.validate utils0 user1 80 10 none none
        (some "") "mobile" = .error e) ∧
    (∃ e, ApiVideoVerificationView.post
        { S3_BUCKET_NAME := "b", S3_SECRET_KEY := "s", S3_ACCESS_KEY := "a",
          MAIN_COMPETITION := 9 }
        utils0 [] user1 80 10 none none (some "") "mobile" 3 0 =
      ([], .error e)) :=
  c3_missing_proof_rejected
    { S3_BUCKET_NAME := "b", S3_SECRET_KEY := "s", S3_ACCESS_KEY := "a",
      MAIN_COMPETITION := 9 }
    utils0 [] user1 80 10 none none (some "") "mobile" 3 0 (by decide) (by decide)

/-- C9: the congratulations task is enqueued iff the attached competitor
list is non-empty and some attached competitor's team challenge is the
designated main competition; submissions without competitors never
enqueue it. -/
theorem c9_notification_condition :
    ∀ (S : Settings) (vd : VideoVerificationValidated) (newId created : Nat),
      ((VideoVerificationSerializer.create S vd newId created).2 = true ↔
        vd.competitors ≠ [] ∧
          ∃ t ∈ vd.competitors, t.teamChallengeId = S.MAIN_COMPETITION) ∧
      (vd.competitors = [] →
        (VideoVerificationSerializer.create S vd newId created).2 = false) := by
  intro S vd newId created
  constructor
  · unfold VideoVerificationSerializer.create
    by_cases hc : vd.competitors.isEmpty
    · simp only [hc, Bool.not_true, Bool.false_eq_true, if_false]
      constructor
      · intro hfalse
        simp at hfalse
      · intro ⟨hne, _⟩
        exact absurd (List.isEmpty_iff.mp hc) hne
    · simp only [hc, Bool.not_false, if_true]
      constructor
      · intro hcontains
        refine ⟨fun hnil => hc (by simp [hnil]), ?_⟩
        rcases List.contains_iff_exists_mem_beq.mp hcontains with ⟨x, hx, hbeq⟩
        rcases List.mem_map.mp hx with ⟨t, ht, rfl⟩
        have hmain : S.MAIN_COMPETITION = t.teamChallengeId := by simpa using hbeq
        exact ⟨t, ht, hmain.symm⟩
      · intro ⟨_, t, ht, hmain⟩
        apply List.contains_iff_exists_mem_beq.mpr
        exact ⟨t.teamChallengeId, List.mem_map_of_mem _ ht, by simp [hmain]⟩
  · intro hnil
    unfold VideoVerificationSerializer.create
    simp [hnil]

theorem c9_notification_condition_witness :
    (VideoVerificationSerializer.create
        { S3_BUCKET_NAME := "b", S3_SECRET_KEY := "s", S3_ACCESS_KEY := "a",
          MAIN_COMPETITION := 9 }
        { user := user1, weight_unit := "kg", weight := 80,
          date_of_measurement := 10,
          competitors := [{ id := 4, teamChallengeId := 9 }],
          s3_file_url := some "f", video_url := none, platform := "mobile" }
        3 0).2 = true :=
  (c9_notification_condition
    { S3_BUCKET_NAME := "b", S3_SECRET_KEY := "s", S3_ACCESS_KEY := "a",
      MAIN_COMPETITION := 9 }
    { user := user1, weight_unit := "kg", weight := 80,
      date_of_measurement := 10,
      competitors := [{ id := 4, teamChallengeId := 9 }],
      s3_file_url := some "f", video_url := none, platform := "mobile" }
    3 0).1.mpr ⟨by decide, ⟨{ id := 4, teamChallengeId := 9 }, by decide, rfl⟩⟩

theorem weightSerializer_validate_date (U : Utils) (user : User) (weight : Rat)
    (d : Nat) (vd : WeightValidated)
    (h : WeightSerializer.validate U user weight d = .ok vd) :
    vd.date_of_measurement = d := by
  unfold WeightSerializer.validate at h
  cases hd : U.validate_date d with
  | error e => rw [hd] at h; exact Except.noConfusion h
  | ok x =>
    rw [hd] at h
    cases hw : U.validate_weight user weight d false with
    | error e => rw [hw] at h; exact Except.noConfusion h
    | ok w =>
      rw [hw] at h
      have : Except.ok (ε := String)
          ({ user := user, weight_unit := user.weight_unit, weight := w,
             date_of_measurement := d } : WeightValidated) = .ok vd := h
      rw [← Except.ok.inj this]

/-- C10: a self-reported submission on the weigh-in create endpoint
persists today's date no matter which date was submitted, while a
verified submission persists the submitted date. -/
theorem c10_self_reported_date_override :
    ∀ (U : Utils) (user : User) (weight : Rat) (d newId created : Nat)
      (vd : WeightValidated),
      WeightSerializer.validate U user weight d = .ok vd →
      (CreateWeighinAPIView.post U user (some "self-reported") weight d newId
          created).saved.map (fun m => m.date_of_measurement) = some U.today ∧
      (CreateWeighinAPIView.post U user (some "verified") weight d newId
          created).saved.map (fun m => m.date_of_measurement) = some d := by
  intro U user weight d newId created vd hvd
  have hdate := weightSerializer_validate_date U user weight d vd hvd
  constructor
  · unfold CreateWeighinAPIView.post
    rw [hvd]
    simp [WeightSerializer.save, WeightSerializer.create]
  · unfold CreateWeighinAPIView.post
    rw [hvd]
    simp [WeightSerializer.save, WeightSerializer.create, hdate]

theorem c10_self_reported_date_override_witness :
    (CreateWeighinAPIView.post utils0 user1 (some "self-reported") 80 10 3
        0).saved.map (fun m => m.date_of_measurement) = some utils0.today ∧
    (CreateWeighinAPIView.post utils0 user1 (some "verified") 80 10 3
        0).saved.map (fun m => m.date_of_measurement) = some 10 :=
  c10_self_reported_date_override utils0 user1 80 10 3 0
    { user := user1, weight_unit := "kg", weight := 80,
      date_of_measurement := 10 } rfl

/-- C4 as stated fails on the weigh-in create endpoint: a create request
with an unknown weigh-in type is not rejected with a 4xx; the view
answers 200 with no error (and silently saves nothing). -/
theorem c4_counterexample :
    CreateWeighinAPIView.post utils0 user1 (some "bogus") 80 10 3 0 =
      { status := 200, error := none, saved := none } := by decide

/-- C4 amended: on the unverified weigh-in endpoint a missing or invalid
weigh-in type is rejected with a descriptive validation error and nothing
is persisted; on the weigh-in create endpoint an unrecognised or missing
type also persists nothing, but the response is a 200 carrying no error
rather than a 4xx. -/
theorem c4_amended :
    (∀ (U : Utils) (db : List Weight) (user : User) (wt : Option String)
        (weight : Rat) (d d0 : Nat) (img : Option String) (newId created : Nat),
        U.validate_date d = .ok d0 →
        pyTruthy wt = false →
        CreateUnverifiedWeighinAPIView.post U db user wt weight d img newId
            created = (db, .error "Weigh-in type is required")) ∧
    (∀ (U : Utils) (db : List Weight) (user : User) (s : String)
        (weight : Rat) (d d0 : Nat) (img : Option String) (newId created : Nat),
        U.validate_date d = .ok d0 →
        s ≠ "" → s ≠ "self-reported" → s ≠ "verified" →
        CreateUnverifiedWeighinAPIView.post U db user (some s) weight d img
            newId created = (db, .error "Invalid weigh-in type")) ∧
    (∀ (U : Utils) (user : User) (wt : Option String) (weight : Rat)
        (d newId created : Nat),
        wt ≠ some "self-reported" → wt ≠ some "verified" →
        (CreateWeighinAPIView.post U user wt weight d newId created).saved =
            none ∧
        (∀ vd, WeightSerializer.validate U user weight d = .ok vd →
          CreateWeighinAPIView.post U user wt weight d newId created =
            { status := 200, error := none, saved := none })) := by
  refine ⟨?_, ?_, ?_⟩
  · intro U db user wt weight d d0 img newId created hd hwt
    unfold CreateUnverifiedWeighinAPIView.post UnverifiedWeightSerializer.validate
    rw [hd]
    unfold UnverifiedWeightSerializer.validate_weigh_in_type
    rw [hwt]
    rfl
  · intro U db user s weight d d0 img newId created hd hs0 hs1 hs2
    unfold CreateUnverifiedWeighinAPIView.post UnverifiedWeightSerializer.validate
    rw [hd]
    unfold UnverifiedWeightSerializer.validate_weigh_in_type
    have hemp : s.isEmpty = false := by
      rw [Bool.eq_false_iff]
      intro hemp
      exact hs0 ((String.isEmpty_iff s).mp hemp)
    have h0 : pyTruthy (some s) = true := by simp [pyTruthy, hemp]
    rw [h0]
    have h1 : ((some s != some "self-reported") &&
        (some s != some "verified")) = true := by
      simp [hs1, hs2]
    rw [h1]
    rfl
  · intro U user wt weight d newId created h1 h2
    have hb1 : (wt == some "self-reported") = false := beq_eq_false_iff_ne.mpr h1
    have hb2 : (wt == some "verified") = false := beq_eq_false_iff_ne.mpr h2
    unfold CreateWeighinAPIView.post
    cases hv : WeightSerializer.validate U user weight d with
    | error e =>
      refine ⟨rfl, ?_⟩
      intro vd hvd
      exact Except.noConfusion hvd
    | ok vd =>
      refine ⟨?_, ?_⟩
      · simp [hb1, hb2]
      · intro _ _
        simp [hb1, hb2]

theorem c4_amended_witness :
    CreateUnverifiedWeighinAPIView.post utils0 [] user1 none 80 10 none 3 0 =
      ([], .error "Weigh-in type is required") ∧
    CreateUnverifiedWeighinAPIView.post utils0 [] user1 (some "bogus") 80 10
        none 3 0 = ([], .error "Invalid weigh-in type") ∧
    (CreateWeighinAPIView.post utils0 user1 (some "bogus") 80 10 3 0).saved =
      none :=
  ⟨c4_amended.1 utils0 [] user1 none 80 10 10 none 3 0 rfl rfl,
   c4_amended.2.1 utils0 [] user1 "bogus" 80 10 10 none 3 0 rfl (by decide)
     (by decide) (by decide),
   (c4_amended.2.2 utils0 user1 (some "bogus") 80 10 3 0 (by decide)
     (by decide)).1⟩

/-- C5 as stated fails at creation: an unverified weigh-in carrying a gif
image passes validation, the measurement is created, and the unsupported
image is stored as its proof file. -/
theorem c5_counterexample :
    extOf "photo.gif" ∉ ["jpg".data, "jpeg".data, "png".data] ∧
    CreateUnverifiedWeighinAPIView.post utils0 [] user1 (some "self-reported")
        80 10 (some "photo.gif") 3 0 =
      ([UnverifiedWeightSerializer.save user1 "kg" 80 10 (some "photo.gif") 3 0],
        .ok { first_entry := true, weight_difference := 0,
              lost_weight := .zero, weight_unit := "kg" }) ∧
    (UnverifiedWeightSerializer.save user1 "kg" 80 10 (some "photo.gif") 3
        0).verifier_file = some "photo.gif" :=
  ⟨by decide, rfl, rfl⟩

/-- C5 amended: at update an unsupported image extension is rejected with
a validation error and the table is unchanged, but at creation (the
unverified weigh-in endpoint) the image extension is never validated: the
measurement is created and stores the image as given. -/
theorem c5_amended :
    (∀ (U : Utils) (db : List Weight) (user : User) (pk : Nat) (obj : Weight)
        (d d0 : Nat) (weight : Rat) (img : String) (rm : Bool),
        db.find? (fun w => w.id == pk) = some obj →
        BelongsToUser.has_object_permission user obj = true →
        U.validate_date d = .ok d0 →
        img ≠ "" →
        extOf img ∉ ["jpg".data, "jpeg".data, "png".data] →
        UpdateWeight.put U db user pk d weight (some img) rm =
          (db, .error "Images must be in PNG or JPG or JPEG format")) ∧
    (∀ (U : Utils) (db : List Weight) (user : User) (wt : Option String)
        (weight : Rat) (d : Nat) (img : Option String) (newId created : Nat)
        (vd : UnverifiedValidated),
        UnverifiedWeightSerializer.validate U user wt weight d = .ok vd →
        CreateUnverifiedWeighinAPIView.post U db user wt weight d img newId
            created =
          (db ++ [UnverifiedWeightSerializer.save user vd.weight_unit
              vd.weight d img newId created],
            .ok (UnverifiedWeightSerializer.to_representation
              (db ++ [UnverifiedWeightSerializer.save user vd.weight_unit
                vd.weight d img newId created]) user d)) ∧
        (UnverifiedWeightSerializer.save user vd.weight_unit vd.weight d img
            newId created).verifier_file = img) := by
  constructor
  · intro U db user pk obj d d0 weight img rm hfind hperm hd hne hext
    unfold UpdateWeight.put
    rw [hfind]
    dsimp only
    rw [if_pos hperm]
    unfold UpdateWeightSerializer.validate
    rw [hd]
    unfold UpdateWeightSerializer.image_has_correct_format
    have hemp : img.isEmpty = false := by
      rw [Bool.eq_false_iff]
      intro hemp
      exact hne ((String.isEmpty_iff img).mp hemp)
    have ht : pyTruthy (some img) = true := by simp [pyTruthy, hemp]
    rw [ht, if_pos rfl]
    simp only [Option.getD_some]
    rw [if_neg hext]
    rfl
  · intro U db user wt weight d img newId created vd hv
    constructor
    · unfold CreateUnverifiedWeighinAPIView.post
      rw [hv]
    · rfl

theorem c5_amended_witness :
    UpdateWeight.put utils0 [sampleWeight 1 1 10 0 100 220] user1 1 11 90
        (some "x.gif") false =
      ([sampleWeight 1 1 10 0 100 220],
        .error "Images must be in PNG or JPG or JPEG format") ∧
    (UnverifiedWeightSerializer.save user1 "kg" 80 10 (some "x.gif") 3
        0).verifier_file = some "x.gif" :=
  ⟨c5_amended.1 utils0 [sampleWeight 1 1 10 0 100 220] user1 1
      (sampleWeight 1 1 10 0 100 220) 11 11 90 "x.gif" false rfl rfl rfl
      (by decide) (by decide),
   (c5_amended.2 utils0 [] user1 (some "self-reported") 80 10 (some "x.gif")
      3 0 { weight := 80, weight_unit := "kg" } rfl).2⟩

/-- C8: every create and update path stores exactly the pair produced by
the single conversion helper applied to the user's unit and the validated
weight, and the helper's two components are mutually consistent: the
pounds value is always the kilograms value times the conversion factor. -/
theorem c8_unit_conversion_consistent :
    (∀ (unit : String) (w : Rat),
        (convert_weight_to_kgs_and_lbs unit w).2 =
          (convert_weight_to_kgs_and_lbs unit w).1 * (220462 / 100000 : Rat)) ∧
    (∀ (user : User) (vd : WeightValidated) (newId created : Nat),
        ((WeightSerializer.create user vd newId created).weight_kilograms,
          (WeightSerializer.create user vd newId created).weight_in_pounds) =
          convert_weight_to_kgs_and_lbs vd.weight_unit vd.weight) ∧
    (∀ (S : Settings) (vd : VideoVerificationValidated) (newId created : Nat),
        ((VideoVerificationSerializer.create S vd newId
              created).1.weight_kilograms,
          (VideoVerificationSerializer.create S vd newId
              created).1.weight_in_pounds) =
          convert_weight_to_kgs_and_lbs vd.weight_unit vd.weight) ∧
    (∀ (user : User) (wu : String) (w : Rat) (d : Nat) (img : Option String)
        (newId created : Nat),
        ((UnverifiedWeightSerializer.save user wu w d img newId
              created).weight_kilograms,
          (UnverifiedWeightSerializer.save user wu w d img newId
              created).weight_in_pounds) =
          convert_weight_to_kgs_and_lbs wu w) ∧
    (∀ (inst0 : Weight) (vd : UpdateValidated) (img : Option String)
        (rm : Bool),
        ((UpdateWeightSerializer.update inst0 vd img rm).weight_kilograms,
          (UpdateWeightSerializer.update inst0 vd img rm).weight_in_pounds) =
          convert_weight_to_kgs_and_lbs vd.weight_unit vd.weight) := by
  refine ⟨?_, ?_, ?_, ?_, ?_⟩
  · intro unit w
    unfold convert_weight_to_kgs_and_lbs
    by_cases h : unit = "kg"
    · rw [if_pos h]
    · rw [if_neg h]
      exact (div_mul_cancel₀ w (by norm_num)).symm
  · intro user vd newId created
    rfl
  · intro S vd newId created
    unfold VideoVerificationSerializer.create
    dsimp only
    split
    · split <;> rfl
    · split <;> rfl
  · intro user wu w d img newId created
    rfl
  · intro inst0 vd img rm
    unfold UpdateWeightSerializer.update
    dsimp only
    split
    · rfl
    · split <;> rfl

/-- C7: the policy document produced for every upload-signing request
restricts the bucket, the key prefix (starts-with the object key), the
public-read ACL and the 201 success status, and expires exactly 30 days
after issuance, while the expiry value hashed into the object key is
issuance time plus 1000 seconds (and the two horizons differ). -/
theorem c7_policy_document :
    ∀ (S : Settings) (U : Utils) (user : User) (fn : String),
      (signPolicyDoc S U user fn).expiration = U.now + 30 * 86400 ∧
      (signPolicyDoc S U user fn).conditions =
        [S3Condition.bucket S.S3_BUCKET_NAME,
         S3Condition.startsWithKey (String.mk (signObjectName U user fn)),
         S3Condition.acl "public-read",
         S3Condition.success_action_status "201",
         S3Condition.startsWithContentType ""] ∧
      signExpires U = U.now + 1000 ∧
      signExpires U - U.now ≠ (signPolicyDoc S U user fn).expiration - U.now ∧
      (ApiSignS3PutRequestViewSerializer.create S U user fn).policy =
        String.mk (pyStrip (b64encode (utf8Bytes
          (U.jsonDumps (signPolicyDoc S U user fn)))).data) ∧
      (ApiSignS3PutRequestViewSerializer.create S U user fn).key =
        String.mk (pyStrip (signObjectName U user fn)) := by
  intro S U user fn
  refine ⟨rfl, rfl, rfl, ?_, rfl, rfl⟩
  unfold signExpires signPolicyDoc
  dsimp only
  omega

theorem list_eq_nil_or_append_last (l : List Char) :
    l = [] ∨ ∃ L b, l = L ++ [b] := by
  rcases List.eq_nil_or_concat l with h | ⟨L, b, h⟩
  · exact Or.inl h
  · exact Or.inr ⟨L, b, by simpa [List.concat_eq_append] using h⟩

theorem signFileName_last_no_space (fn : String)
    (h : ∀ c xr, fn.data.reverse = c :: xr → pyIsSpace c = false) :
    ∀ c xr, (signFileName fn).reverse = c :: xr → pyIsSpace c = false := by
  intro c xr hrev
  rcases list_eq_nil_or_append_last (splitextL fn.data).2 with hext | ⟨E, e, hext⟩
  · unfold signFileName at hrev
    rw [hext, List.append_nil] at hrev
    have hc : c ∈ (b64chunks (utf8Flat
        (((splitextL fn.data).1).map Char.toNat))).reverse := by
      rw [hrev]
      exact List.mem_cons_self c xr
    rw [List.mem_reverse] at hc
    exact b64chunks_no_space _ c hc
  · have hfn : fn.data = (splitextL fn.data).1 ++ (E ++ [e]) := by
      rw [← hext]
      exact (splitextL_append fn.data).symm
    have hfnrev : fn.data.reverse = e :: (E.reverse ++
        ((splitextL fn.data).1).reverse) := by
      conv_lhs => rw [hfn]
      simp
    have he : pyIsSpace e = false := h e _ hfnrev
    unfold signFileName at hrev
    rw [hext] at hrev
    rw [show b64chunks (utf8Flat (((splitextL fn.data).1).map Char.toNat)) ++
        (E ++ [e]) = (b64chunks (utf8Flat (((splitextL fn.data).1).map
          Char.toNat)) ++ E) ++ [e] by simp] at hrev
    rw [List.reverse_append] at hrev
    simp only [List.reverse_cons, List.reverse_nil, List.nil_append,
      List.singleton_append, List.cons.injEq] at hrev
    rw [← hrev.1]
    exact he

theorem signKey_decomp (S : Settings) (U : Utils) (user : User) (fn : String)
    (h : ∀ c xr, fn.data.reverse = c :: xr → pyIsSpace c = false) :
    (ApiSignS3PutRequestViewSerializer.create S U user fn).key.data =
      (U.sha1hex (toString (signExpires U))).data.dropWhile pyIsSpace ++
        '-' :: user.special_code.data ++ '-' :: signFileName fn := by
  have hkey : (ApiSignS3PutRequestViewSerializer.create S U user fn).key.data =
      pyStrip (signObjectName U user fn) := rfl
  rw [hkey]
  have hshape : signObjectName U user fn =
      (((U.sha1hex (toString (signExpires U))).data ++
        '-' :: user.special_code.data) ++ ['-']) ++ signFileName fn := by
    unfold signObjectName
    simp
  rw [hshape,
    pyStrip_block ((U.sha1hex (toString (signExpires U))).data ++
      '-' :: user.special_code.data) (signFileName fn)
      (signFileName_last_no_space fn h)]
  have hdrop : (((U.sha1hex (toString (signExpires U))).data ++
      '-' :: user.special_code.data) ++ ['-']).dropWhile pyIsSpace =
      (U.sha1hex (toString (signExpires U))).data.dropWhile pyIsSpace ++
        '-' :: user.special_code.data ++ ['-'] := by
    rw [show ((U.sha1hex (toString (signExpires U))).data ++
        '-' :: user.special_code.data) ++ ['-'] =
        ((U.sha1hex (toString (signExpires U))).data ++ ['-']) ++
          (user.special_code.data ++ ['-']) by simp]
    rw [dropWhile_append_of_mem (a := '-')
      ((U.sha1hex (toString (signExpires U))).data ++ ['-'])
      (List.mem_append_right _ (by simp)) (by decide)]
    rw [dropWhile_append_last (by decide)]
    simp
  rw [hdrop]
  simp

theorem stems_eq_of_b64 (s1 s2 : List Char)
    (h : b64chunks (utf8Flat (s1.map Char.toNat)) =
      b64chunks (utf8Flat (s2.map Char.toNat))) : s1 = s2 := by
  have hcp1 : ∀ n ∈ s1.map Char.toNat, n < 1114112 := by
    intro n hn
    rcases List.mem_map.mp hn with ⟨c, hc, rfl⟩
    exact char_toNat_lt c
  have hcp2 : ∀ n ∈ s2.map Char.toNat, n < 1114112 := by
    intro n hn
    rcases List.mem_map.mp hn with ⟨c, hc, rfl⟩
    exact char_toNat_lt c
  have hflat := b64chunks_inj (utf8Flat_bytes_lt _ hcp1)
    (utf8Flat_bytes_lt _ hcp2) h
  have hmap := utf8Flat_inj hcp1 hcp2 hflat
  exact List.map_injective_iff.mpr
    (fun a b hab => Char.ext (UInt32.ext hab)) hmap

theorem signFileName_inj (fn1 fn2 : String)
    (h : signFileName fn1 = signFileName fn2) : fn1 = fn2 := by
  apply String.ext
  have hap1 := splitextL_append fn1.data
  have hap2 := splitextL_append fn2.data
  unfold signFileName at h
  rcases splitextL_ext_shape fn1.data with he1 | ⟨t1, he1, hnd1⟩ <;>
    rcases splitextL_ext_shape fn2.data with he2 | ⟨t2, he2, hnd2⟩
  · rw [he1, he2, List.append_nil, List.append_nil] at h
    have hs := stems_eq_of_b64 _ _ h
    rw [← hap1, ← hap2, he1, he2, hs]
  · rw [he1, List.append_nil, he2] at h
    exfalso
    apply b64chunks_no_dot (utf8Flat (((splitextL fn1.data).1).map Char.toNat))
    rw [h]
    exact List.mem_append_right _ (List.mem_cons_self _ _)
  · rw [he2, List.append_nil, he1] at h
    exfalso
    apply b64chunks_no_dot (utf8Flat (((splitextL fn2.data).1).map Char.toNat))
    rw [← h]
    exact List.mem_append_right _ (List.mem_cons_self _ _)
  · rw [he1, he2] at h
    rcases append_dot_inj _ _ _ _ (b64chunks_no_dot _) (b64chunks_no_dot _) h
      with ⟨hb, ht⟩
    have hs := stems_eq_of_b64 _ _ hb
    rw [← hap1, ← hap2, he1, he2, hs, ht]

/-- Sample settings for witnesses and counterexamples. -/
def settings0 : Settings :=
  { S3_BUCKET_NAME := "b", S3_SECRET_KEY := "s", S3_ACCESS_KEY := "a",
    MAIN_COMPETITION := 9 }

/-- C6 as stated fails: the returned key is `strip()`ped, so two distinct
filenames that differ only by trailing whitespace in the extension are
assigned the same object key for the same user and time. -/
theorem c6_counterexample :
    ("a.b" : String) ≠ "a.b " ∧
    (ApiSignS3PutRequestViewSerializer.create settings0 utils0 user1
        "a.b").key =
      (ApiSignS3PutRequestViewSerializer.create settings0 utils0 user1
        "a.b ").key := by
  constructor
  · decide
  · rfl

/-- C6 amended: for filenames that do not end in a whitespace character,
the returned object key carries the user's code and the base64-encoded
stem with the original extension appended, and two different such
filenames always yield different keys; the signature is in every case the
(stripped, line-wrapped) base64 of the HMAC-SHA1 digest of the
base64-encoded policy. -/
theorem c6_amended :
    (∀ (S : Settings) (U : Utils) (user : User) (fn : String),
        (∀ c xr, fn.data.reverse = c :: xr → pyIsSpace c = false) →
        ∃ pre : List Char,
          (ApiSignS3PutRequestViewSerializer.create S U user fn).key.data =
            pre ++ '-' :: user.special_code.data ++ '-' ::
              (b64chunks (utf8Bytes (String.mk (splitextL fn.data).1)) ++
                (splitextL fn.data).2)) ∧
    (∀ (S : Settings) (U : Utils) (user : User) (fn1 fn2 : String),
        (∀ c xr, fn1.data.reverse = c :: xr → pyIsSpace c = false) →
        (∀ c xr, fn2.data.reverse = c :: xr → pyIsSpace c = false) →
        (ApiSignS3PutRequestViewSerializer.create S U user fn1).key =
          (ApiSignS3PutRequestViewSerializer.create S U user fn2).key →
        fn1 = fn2) ∧
    (∀ (S : Settings) (U : Utils) (user : User) (fn : String),
        (ApiSignS3PutRequestViewSerializer.create S U user fn).signature =
          String.mk (pyStrip (encodestringBytes
            (U.hmacSha1 S.S3_SECRET_KEY (signPolicyB64 S U user fn))))) := by
  refine ⟨?_, ?_, ?_⟩
  · intro S U user fn h
    refine ⟨(U.sha1hex (toString (signExpires U))).data.dropWhile pyIsSpace, ?_⟩
    exact signKey_decomp S U user fn h
  · intro S U user fn1 fn2 h1 h2 hkey
    have hd1 := signKey_decomp S U user fn1 h1
    have hd2 := signKey_decomp S U user fn2 h2
    rw [hkey, hd2] at hd1
    have hx : signFileName fn1 = signFileName fn2 := by
      have := List.append_cancel_left hd1.symm
      simpa using this
    exact signFileName_inj fn1 fn2 hx
  · intro S U user fn
    rfl

theorem last_no_space_of_head (d : Char) (L : List Char)
    (hd : pyIsSpace d = false) :
    ∀ c xr, (d :: L) = c :: xr → pyIsSpace c = false := by
  intro c xr h
  injection h with h1 _
  rw [← h1]
  exact hd

theorem c6_amended_witness :
    (∃ pre : List Char,
        (ApiSignS3PutRequestViewSerializer.create settings0 utils0 user1
            "a.png").key.data =
          pre ++ '-' :: user1.special_code.data ++ '-' ::
            (b64chunks (utf8Bytes (String.mk
                (splitextL ("a.png" : String).data).1)) ++
              (splitextL ("a.png" : String).data).2)) ∧
    (("a.png" : String) = "c.png" → False) ∧
    ((ApiSignS3PutRequestViewSerializer.create settings0 utils0 user1
          "a.png").key =
        (ApiSignS3PutRequestViewSerializer.create settings0 utils0 user1
          "c.png").key → False) := by
  refine ⟨?_, by decide, ?_⟩
  · exact c6_amended.1 settings0 utils0 user1 "a.png"
      (last_no_space_of_head 'g' ['n', 'p', '.', 'a'] (by decide))
  · intro hkey
    exact absurd (c6_amended.2.1 settings0 utils0 user1 "a.png" "c.png"
      (last_no_space_of_head 'g' ['n', 'p', '.', 'a'] (by decide))
      (last_no_space_of_head 'g' ['n', 'p', '.', 'c'] (by decide)) hkey)
      (by decide)
